import Mathlib

/-!
Verification development for the SolView data-acquisition core.

The definitions below are a shallow embedding of the repository's core
functions:

* the JSON-RPC client `rpc` and the three wallet sub-queries `getBalance`,
  `getTokens`, `getTxns`, together with the `search` aggregation
  (from `src/App.tsx`);
* the DexScreener token-market resolver `fetchTokenData` with its
  reduce-based pair selection, and the formatter `formatPrice`
  (from `src/app/token/[mint].tsx`);
* the relative-time formatter `timeAgo` (from `src/App.tsx`).

Network effects are embedded by passing the (possibly failing) parsed
responses of each HTTP/RPC exchange as explicit inputs; JavaScript numbers
are embedded as rationals (ℚ); nullable JSON fields as `Option`.
-/

namespace SolView

/-! ### The JSON-RPC client (src/App.tsx, `rpc`) -/

/-- The `error` object of a parsed JSON-RPC response body
(the source reads `json.error.message`). -/
structure RpcErrorObj where
  message : String
  deriving Repr, DecidableEq

/-- A parsed JSON-RPC response body, as the source consumes it:
an optional `error` object and a `result` payload (`json.result`).
An absent/null `error` field is `none`. -/
structure RpcBody (α : Type) where
  error : Option RpcErrorObj
  result : α
  deriving Repr

/-- Embedding of `rpc` (src/App.tsx lines 28-37) after the body has been
parsed: `if (json.error) throw new Error(json.error.message); return
json.result;`.  A thrown error is an `Except.error` carrying the message. -/
def rpc {α : Type} (json : RpcBody α) : Except String α :=
  match json.error with
  | some e => Except.error e.message
  | none => Except.ok json.result

/-! ### Wallet sub-queries (src/App.tsx, `getBalance`, `getTokens`, `getTxns`)

Each sub-query performs one network exchange.  Its input here is
`Except String (RpcBody α)`: either a transport-level rejection of the
underlying `fetch`/JSON-parse, or the parsed JSON-RPC body which is then
fed through `rpc`. -/

/-- The result of the `getBalance` RPC method: `{ value: lamports }`. -/
structure BalanceResult where
  value : Int
  deriving Repr, DecidableEq

/-- Embedding of `getBalance` (src/App.tsx lines 39-42):
`result.value / 1_000_000_000`. -/
def getBalance (resp : Except String (RpcBody BalanceResult)) :
    Except String ℚ := do
  let body ← resp
  let result ← rpc body
  pure ((result.value : ℚ) / 1000000000)

/-- `tokenAmount` node of a parsed token account: `{ uiAmount }`. -/
structure TokenAmount where
  uiAmount : ℚ
  deriving Repr, DecidableEq

/-- `info` node of a parsed token account: `{ mint, tokenAmount }`. -/
structure TokenAccountInfo where
  mint : String
  tokenAmount : TokenAmount
  deriving Repr, DecidableEq

/-- `parsed` node of a token account (`a.account.data.parsed`). -/
structure ParsedAccountData where
  info : TokenAccountInfo
  deriving Repr, DecidableEq

/-- `data` node of a token account (`a.account.data`). -/
structure AccountData where
  parsed : ParsedAccountData
  deriving Repr, DecidableEq

/-- `account` node of a token-account entry (`a.account`). -/
structure AccountNode where
  data : AccountData
  deriving Repr, DecidableEq

/-- One entry of the `getTokenAccountsByOwner` response list. -/
structure TokenAccountEntry where
  account : AccountNode
  deriving Repr, DecidableEq

/-- The `getTokenAccountsByOwner` result: `{ value: entries | null }`
(the source guards with `result.value || []`). -/
structure TokenAccountsResult where
  value : Option (List TokenAccountEntry)
  deriving Repr, DecidableEq

/-- A wallet token holding `{ mint, amount }` as built by `getTokens`. -/
structure TokenHolding where
  mint : String
  amount : ℚ
  deriving Repr, DecidableEq

/-- The per-entry projection of `getTokens`:
`{ mint: a.account.data.parsed.info.mint,
   amount: a.account.data.parsed.info.tokenAmount.uiAmount }`. -/
def toHolding (a : TokenAccountEntry) : TokenHolding :=
  { mint := a.account.data.parsed.info.mint
    amount := a.account.data.parsed.info.tokenAmount.uiAmount }

/-- The pure core of `getTokens` (src/App.tsx lines 50-55):
`(result.value || []).map(...).filter((t) => t.amount > 0)`. -/
def tokensFromValue (value : Option (List TokenAccountEntry)) :
    List TokenHolding :=
  ((value.getD []).map toHolding).filter (fun t => 0 < t.amount)

/-- Embedding of `getTokens` (src/App.tsx lines 44-56). -/
def getTokens (resp : Except String (RpcBody TokenAccountsResult)) :
    Except String (List TokenHolding) := do
  let body ← resp
  let result ← rpc body
  pure (tokensFromValue result.value)

/-- One entry of the `getSignaturesForAddress` response:
`{ signature, blockTime (nullable), err (nullable) }`. -/
structure SignatureEntry where
  signature : String
  blockTime : Option Int
  err : Option String
  deriving Repr, DecidableEq

/-- A transaction summary `{ sig, time, ok }` as built by `getTxns`. -/
structure TxnSummary where
  sig : String
  time : Option Int
  ok : Bool
  deriving Repr, DecidableEq

/-- The per-entry projection of `getTxns`:
`{ sig: s.signature, time: s.blockTime, ok: !s.err }`
(`!s.err` is true exactly when `err` is absent/null). -/
def toTxnSummary (s : SignatureEntry) : TxnSummary :=
  { sig := s.signature, time := s.blockTime, ok := s.err.isNone }

/-- The pure core of `getTxns` (src/App.tsx lines 60-64). -/
def txnsFromSigs (sigs : List SignatureEntry) : List TxnSummary :=
  sigs.map toTxnSummary

/-- Embedding of `getTxns` (src/App.tsx lines 58-65). -/
def getTxns (resp : Except String (RpcBody (List SignatureEntry))) :
    Except String (List TxnSummary) := do
  let body ← resp
  let sigs ← rpc body
  pure (txnsFromSigs sigs)

/-! ### The wallet aggregation (src/App.tsx, `search`)

`search` trims the typed address, alerts without any network call when it
is empty, and otherwise joins the three sub-queries with `Promise.all`,
updating the `balance`/`tokens`/`txns` state only when all three resolve.
The join is embedded by sequencing the three already-settled sub-query
results; a rejection of the join carries one of the sub-queries' errors. -/

/-- The component state set by `search`: the `balance`, `tokens` and
`txns` `useState` cells (balance starts as `null`). -/
structure WalletState where
  balance : Option ℚ
  tokens : List TokenHolding
  txns : List TxnSummary
  deriving Repr, DecidableEq

/-- The observable outcome of one `search` invocation: the
"Enter a wallet address" alert, the "Error" alert with the caught
message, or a successful state update. -/
inductive SearchOutcome where
  | missingAddressAlert : SearchOutcome
  | errorAlert : String → SearchOutcome
  | updated : SearchOutcome
  deriving Repr, DecidableEq

/-- The result of one `search` invocation: the state after the call, the
outcome, and the list of RPC methods for which a network request was
issued. -/
structure SearchResult where
  state : WalletState
  outcome : SearchOutcome
  requests : List String
  deriving Repr, DecidableEq

/-- The three RPC requests issued by a non-trivial `search`. -/
def walletRequests : List String :=
  ["getBalance", "getTokenAccountsByOwner", "getSignaturesForAddress"]

/-- The `Promise.all` join of the three settled sub-query results: it
resolves with the triple exactly when all three resolve, and rejects with
one of the rejection errors otherwise. -/
def promiseAll3 (bal : Except String ℚ)
    (tok : Except String (List TokenHolding))
    (tx : Except String (List TxnSummary)) :
    Except String (ℚ × List TokenHolding × List TxnSummary) := do
  let b ← bal
  let t ← tok
  let x ← tx
  pure (b, t, x)

/-- JavaScript's `String.prototype.trim`: strip leading and trailing
whitespace. -/
def jsTrim (s : String) : String :=
  String.mk
    (((s.data.dropWhile Char.isWhitespace).reverse.dropWhile
        Char.isWhitespace).reverse)

/-- Embedding of `search` (src/App.tsx lines 84-102).  The three RPC
exchange results are passed in as inputs; the state is updated only after
the `Promise.all` join succeeds, and the `catch` branch leaves it
untouched. -/
def search (st : WalletState) (address : String)
    (balResp : Except String (RpcBody BalanceResult))
    (tokResp : Except String (RpcBody TokenAccountsResult))
    (sigResp : Except String (RpcBody (List SignatureEntry))) : SearchResult :=
  if jsTrim address = "" then
    { state := st, outcome := SearchOutcome.missingAddressAlert
      requests := [] }
  else
    match promiseAll3 (getBalance balResp) (getTokens tokResp)
        (getTxns sigResp) with
    | Except.error e =>
        { state := st, outcome := SearchOutcome.errorAlert e
          requests := walletRequests }
    | Except.ok (bal, tok, tx) =>
        { state := { balance := some bal, tokens := tok, txns := tx }
          outcome := SearchOutcome.updated, requests := walletRequests }

/-! ### The relative-time formatter (src/App.tsx, `timeAgo`) -/

/-- The elapsed seconds computed by `timeAgo`:
`Math.floor(Date.now() / 1000 - ts)` with `Date.now()` in milliseconds. -/
def elapsedSeconds (nowMs ts : Int) : Int :=
  ⌊(nowMs : ℚ) / 1000 - (ts : ℚ)⌋

/-- Embedding of `timeAgo` (src/App.tsx lines 69-75); `Math.floor` of the
per-bucket quotient is floor division. -/
def timeAgo (nowMs ts : Int) : String :=
  let s := elapsedSeconds nowMs ts
  if s < 60 then toString s ++ "s ago"
  else if s < 3600 then toString (Int.fdiv s 60) ++ "m ago"
  else if s < 86400 then toString (Int.fdiv s 3600) ++ "h ago"
  else toString (Int.fdiv s 86400) ++ "d ago"

/-! ### The token-market resolver (src/app/token/[mint].tsx, `fetchTokenData`) -/

/-- `baseToken` node of a DexScreener trading pair. -/
structure BaseToken where
  address : String
  name : String
  symbol : String
  deriving Repr, DecidableEq

/-- `liquidity` node of a trading pair: `{ usd }`. -/
structure Liquidity where
  usd : ℚ
  deriving Repr, DecidableEq

/-- A DexScreener trading pair as consumed by the token screen.  The
one-field wrapper objects `priceChange`, `volume` and `info` of the
`TokenPair` interface are flattened to their single fields; the optional
`liquidity` node is kept optional because the selection coerces a missing
`liquidity?.usd` to 0. -/
structure TokenPair where
  chainId : String
  dexId : String
  pairAddress : String
  baseToken : BaseToken
  priceUsd : String
  priceChangeH24 : ℚ
  volumeH24 : ℚ
  liquidity : Option Liquidity
  fdv : ℚ
  marketCap : ℚ
  imageUrl : Option String
  deriving Repr, DecidableEq

/-- The liquidity-in-USD used by the selection:
`pair.liquidity?.usd || 0`. -/
def liqUsd (p : TokenPair) : ℚ :=
  match p.liquidity with
  | some l => l.usd
  | none => 0

/-- One step of the `reduce` callback:
`currentLiq > bestLiq ? current : best`. -/
def pickBetter (best current : TokenPair) : TokenPair :=
  if liqUsd current > liqUsd best then current else best

/-- The parsed DexScreener body: `{ pairs: TokenPair[] | null }`. -/
structure DexScreenerResponse where
  pairs : Option (List TokenPair)
  deriving Repr, DecidableEq

/-- The two failures thrown by `fetchTokenData`: the non-success HTTP
status (`Failed to fetch: {status}` — the spec's MarketFetchError) and
the empty pair list (`Token not found on DexScreener` — the spec's
TokenNotFoundError). -/
inductive TokenFetchError where
  | marketFetchError : Nat → TokenFetchError
  | tokenNotFoundError : TokenFetchError
  deriving Repr, DecidableEq

/-- The market API HTTP exchange as the screen observes it: the `ok`
flag, the status code and the parsed JSON body. -/
structure MarketHttpResponse where
  ok : Bool
  status : Nat
  body : DexScreenerResponse
  deriving Repr, DecidableEq

/-- Embedding of the fetch-and-select core of `fetchTokenData`
(src/app/token/[mint].tsx lines 68-87): throw on `!res.ok`, throw when
`pairs` is null/empty, otherwise `pairs.reduce(pickBetter, pairs[0])` —
the reduce starts from `data.pairs[0]` and walks the whole list. -/
def fetchTokenData (res : MarketHttpResponse) :
    Except TokenFetchError TokenPair :=
  if res.ok then
    match res.body.pairs with
    | none => Except.error TokenFetchError.tokenNotFoundError
    | some [] => Except.error TokenFetchError.tokenNotFoundError
    | some (p :: rest) => Except.ok (List.foldl pickBetter p (p :: rest))
  else Except.error (TokenFetchError.marketFetchError res.status)

/-- The pair-selection scan exactly as the spec words it: the first
element is the initial best and only the later elements are scanned.
(The source's reduce also compares the first element against itself,
which is proved equivalent.) -/
def selectByLiquidity (p : TokenPair) (rest : List TokenPair) : TokenPair :=
  List.foldl pickBetter p rest

/-- A sample pair with no `liquidity` node, for concrete evaluations. -/
def samplePairNoLiq : TokenPair :=
  { chainId := "solana", dexId := "raydium", pairAddress := "pairA"
    baseToken := { address := "mintX", name := "X", symbol := "X" }
    priceUsd := "1.0", priceChangeH24 := 0, volumeH24 := 0
    liquidity := none, fdv := 0, marketCap := 0, imageUrl := none }

/-- A sample pair with a given liquidity, for concrete evaluations. -/
def samplePairWithLiq (addr : String) (liq : ℚ) : TokenPair :=
  { chainId := "solana", dexId := "orca", pairAddress := addr
    baseToken := { address := "mintY", name := "Y", symbol := "Y" }
    priceUsd := "2.0", priceChangeH24 := 1, volumeH24 := 3
    liquidity := some { usd := liq }, fdv := 4, marketCap := 5
    imageUrl := none }

/-! ### The price formatter (src/app/token/[mint].tsx, `formatPrice`)

`formatPrice` is modelled on the already-parsed numeric price (the
source's `parseFloat` string/number boundary), with JavaScript's decimal
renderers `toExponential(4)`, `toFixed(6)` and
`toLocaleString(undefined, {minimumFractionDigits: 2,
maximumFractionDigits: 2})` (default-locale thousands grouping)
implemented over ℚ. -/

/-- Decimal rounding to the nearest integer, halves away from zero on
the nonnegative range where the formatters use it. -/
def roundNearest (q : ℚ) : Int :=
  ⌊q + 1 / 2⌋

/-- The last `k` decimal digits of `n`, most significant first, as used
for a fixed-width fractional part. -/
def lastDigits : Nat → Nat → List Char
  | 0, _ => []
  | Nat.succ k, n => lastDigits k (n / 10) ++ [Nat.digitChar (n % 10)]

/-- A fixed six-digit fractional part. -/
def frac6 (n : Nat) : String :=
  String.mk (lastDigits 6 n)

/-- A fixed four-digit fractional part. -/
def frac4 (n : Nat) : String :=
  String.mk (lastDigits 4 n)

/-- A fixed two-digit fractional part. -/
def frac2 (n : Nat) : String :=
  String.mk (lastDigits 2 n)

/-- JavaScript's `toFixed(6)` on a nonnegative decimal value. -/
def toFixed6OfNonneg (p : ℚ) : String :=
  Nat.repr ((roundNearest (p * 1000000)).toNat / 1000000) ++ "." ++
    frac6 ((roundNearest (p * 1000000)).toNat % 1000000)

/-- JavaScript's `toFixed(6)`. -/
def toFixed6 (p : ℚ) : String :=
  if p < 0 then "-" ++ toFixed6OfNonneg (-p) else toFixed6OfNonneg p

/-- Comma insertion after every third character of a reversed digit
list (the recursion counter is the position inside the current group). -/
def groupRev : List Char → Nat → List Char
  | [], _ => []
  | [c], _ => [c]
  | c :: cs, k => if k = 2 then c :: ',' :: groupRev cs 0 else c :: groupRev cs (k + 1)

/-- The default-locale integer grouping: decimal digits in groups of
three separated by commas. -/
def groupThousands (n : Nat) : String :=
  String.mk (List.reverse (groupRev (List.reverse (Nat.repr n).data) 0))

/-- `toLocaleString(undefined, {minimumFractionDigits: 2,
maximumFractionDigits: 2})` on a nonnegative decimal value. -/
def toLocale2OfNonneg (p : ℚ) : String :=
  groupThousands ((roundNearest (p * 100)).toNat / 100) ++ "." ++
    frac2 ((roundNearest (p * 100)).toNat % 100)

/-- `toLocaleString` with exactly two fraction digits. -/
def toLocale2 (p : ℚ) : String :=
  if p < 0 then "-" ++ toLocale2OfNonneg (-p) else toLocale2OfNonneg p

/-- The exponent suffix of scientific notation: `e+k` / `e-k`. -/
def expSuffix (e : Int) : String :=
  if e < 0 then "e-" ++ Nat.repr e.natAbs else "e+" ++ Nat.repr e.natAbs

/-- A scientific-notation rendering `d.ddddek` from a five-digit
mantissa `m` (`10000 ≤ m ≤ 99999`) and an exponent. -/
def sci4 (m : Nat) (e : Int) : String :=
  String.mk [Nat.digitChar (m / 10000)] ++ "." ++ frac4 (m % 10000) ++ expSuffix e

/-- The number of tenfold magnifications (at most `fuel`) needed to bring
a positive `q < 1` up to at least 1; used for the negative decimal
exponent. -/
def negExp10Aux : Nat → ℚ → Nat
  | 0, _ => 0
  | Nat.succ fuel, q => if 1 ≤ q then 0 else Nat.succ (negExp10Aux fuel (q * 10))

/-- The decimal exponent `⌊log10 p⌋` of a positive rational. -/
def log10floorPos (p : ℚ) : Int :=
  if 1 ≤ p then ((Nat.repr (Int.toNat ⌊p⌋)).length : Int) - 1
  else -(negExp10Aux ((Nat.repr p.den).length + 1) p : Int)

/-- Multiplication by a (possibly negative) power of ten. -/
def shift10 (p : ℚ) (k : Int) : ℚ :=
  if 0 ≤ k then p * (10 : ℚ) ^ Int.toNat k else p / (10 : ℚ) ^ Int.toNat (-k)

/-- Assembly of the scientific rendering from the exponent and the
rounded five-digit mantissa, carrying a `100000` overflow (a mantissa
that rounded up to `10.0000`) into the next exponent. -/
def toExpAux (e : Int) (m : Nat) : String :=
  if 100000 ≤ m then sci4 (m / 10) (e + 1) else sci4 m e

/-- JavaScript's `toExponential(4)` on a positive value: mantissa rounded
to four fractional digits. -/
def toExponential4OfPos (p : ℚ) : String :=
  toExpAux (log10floorPos p)
    ((roundNearest (shift10 p (4 - log10floorPos p))).toNat)

/-- JavaScript's `toExponential(4)`. -/
def toExponential4 (p : ℚ) : String :=
  if p = 0 then "0.0000e+0"
  else if p < 0 then "-" ++ toExponential4OfPos (-p)
  else toExponential4OfPos p

/-- Embedding of `formatPrice` (src/app/token/[mint].tsx lines 105-110):
three regimes split at `0.0001` and `1`, each prefixed with `$`. -/
def formatPrice (price : ℚ) : String :=
  if price < 1 / 10000 then "$" ++ toExponential4 price
  else if price < 1 then "$" ++ toFixed6 price
  else "$" ++ toLocale2 price

end SolView

namespace SolView

/-! ### C4: the RPC client's error/result dispatch -/

/-- C4.  For every JSON body that the RPC client successfully parses:
if the parsed body contains an `error` field the call fails with the
server-supplied error message, and otherwise the call returns the body's
`result` field. -/
theorem rpc_error_result_dispatch {α : Type} (json : RpcBody α) :
    (∀ e : RpcErrorObj, json.error = some e →
        rpc json = Except.error e.message) ∧
    (json.error = none → rpc json = Except.ok json.result) := by
  constructor
  · intro e he
    simp [rpc, he]
  · intro hn
    simp [rpc, hn]

/-- Witness for C4: the dispatch evaluated on one body with an `error`
field and one without. -/
theorem rpc_error_result_dispatch_witness :
    rpc { error := some { message := "oops" }, result := (0 : Int) } =
      Except.error "oops" ∧
    rpc { error := none, result := (7 : Int) } = Except.ok 7 := by
  refine ⟨(rpc_error_result_dispatch _).1 { message := "oops" } rfl, ?_⟩
  exact (rpc_error_result_dispatch { error := none, result := (7 : Int) }).2 rfl

/-! ### C5: token holdings are the positive-amount entries, in order -/

/-- C5.  The holdings built by `getTokens` are exactly the entries of the
parsed token-account list whose UI-scaled amount is positive, each mapped
to `{mint, amount}` and kept in response order; every returned holding has
a positive amount; and an absent or empty account list yields the empty
list (not an error), also through the full `getTokens` pipeline. -/
theorem getTokens_positive_holdings (value : Option (List TokenAccountEntry)) :
    tokensFromValue value =
      ((value.getD []).filter
          (fun a => 0 < a.account.data.parsed.info.tokenAmount.uiAmount)).map
        toHolding ∧
    (∀ t ∈ tokensFromValue value, 0 < t.amount) ∧
    tokensFromValue none = [] ∧
    getTokens (Except.ok { error := none, result := { value := none } }) =
      Except.ok [] ∧
    getTokens (Except.ok { error := none, result := { value := some [] } }) =
      Except.ok [] := by
  refine ⟨?_, ?_, rfl, rfl, rfl⟩
  · unfold tokensFromValue
    induction value.getD [] with
    | nil => rfl
    | cons a rest ih =>
      by_cases h : 0 < a.account.data.parsed.info.tokenAmount.uiAmount
      · simpa [toHolding, h] using ih
      · simpa [toHolding, h] using ih
  · intro t ht
    have := List.of_mem_filter ht
    simpa using this

/-- Witness for C5: the characterization evaluated on a response holding
one zero-balance and one positive-balance account. -/
theorem getTokens_positive_holdings_witness :
    tokensFromValue
        (some
          [{ account := { data := { parsed := { info :=
              { mint := "mintA", tokenAmount := { uiAmount := 0 } } } } } },
           { account := { data := { parsed := { info :=
              { mint := "mintB", tokenAmount := { uiAmount := 5 } } } } } }]) =
      [{ mint := "mintB", amount := 5 }] ∧
    (∀ t ∈ tokensFromValue
        (some
          [{ account := { data := { parsed := { info :=
              { mint := "mintA", tokenAmount := { uiAmount := 0 } } } } } },
           { account := { data := { parsed := { info :=
              { mint := "mintB", tokenAmount := { uiAmount := 5 } } } } } }]),
      0 < t.amount) := by
  constructor
  · have h := (getTokens_positive_holdings
      (some
        [{ account := { data := { parsed := { info :=
            { mint := "mintA", tokenAmount := { uiAmount := 0 } } } } } },
         { account := { data := { parsed := { info :=
            { mint := "mintB", tokenAmount := { uiAmount := 5 } } } } } }])).1
    rw [h]
    norm_num [List.filter, toHolding]
  · exact (getTokens_positive_holdings _).2.1

/-! ### C6: a transaction succeeded exactly when its `err` is absent -/

/-- C6.  For every signature entry, the resulting transaction summary has
`ok = true` if and only if the entry's `err` field is absent/null; this
holds pointwise across the whole list built by `getTxns`. -/
theorem txn_succeeded_iff_err_absent :
    (∀ s : SignatureEntry, (toTxnSummary s).ok = true ↔ s.err = none) ∧
    ∀ sigs : List SignatureEntry,
      List.Forall₂ (fun s t => t.ok = true ↔ s.err = none) sigs
        (txnsFromSigs sigs) := by
  have hpt : ∀ s : SignatureEntry, (toTxnSummary s).ok = true ↔ s.err = none := by
    intro s
    simp [toTxnSummary]
  refine ⟨hpt, ?_⟩
  intro sigs
  induction sigs with
  | nil => exact List.Forall₂.nil
  | cons s rest ih => exact List.Forall₂.cons (hpt s) ih

/-- Witness for C6: a null `err` maps to a succeeded summary, a present
`err` to a failed one. -/
theorem txn_succeeded_iff_err_absent_witness :
    (toTxnSummary { signature := "s1", blockTime := none, err := none }).ok =
      true ∧
    (toTxnSummary
        { signature := "s2", blockTime := some 3, err := some "x" }).ok =
      false := by
  refine ⟨(txn_succeeded_iff_err_absent.1 _).mpr rfl, by decide⟩

/-! ### C9: empty/whitespace address fails before any network call -/

/-- C9.  For every address that is empty or whitespace-only after
trimming, `search` raises the validation alert, leaves the state
untouched and issues no RPC network request at all. -/
theorem search_empty_address_no_rpc (st : WalletState) (address : String)
    (balResp : Except String (RpcBody BalanceResult))
    (tokResp : Except String (RpcBody TokenAccountsResult))
    (sigResp : Except String (RpcBody (List SignatureEntry)))
    (h : jsTrim address = "") :
    search st address balResp tokResp sigResp =
      { state := st, outcome := SearchOutcome.missingAddressAlert
        requests := [] } := by
  simp [search, h]

/-- Witness for C9: a whitespace-only address issues no request. -/
theorem search_empty_address_no_rpc_witness :
    (jsTrim "  " = "") ∧
    search { balance := none, tokens := [], txns := [] } "  "
        (Except.error "t1") (Except.error "t2") (Except.error "t3") =
      { state := { balance := none, tokens := [], txns := [] }
        outcome := SearchOutcome.missingAddressAlert, requests := [] } := by
  refine ⟨by decide, ?_⟩
  exact search_empty_address_no_rpc _ _ _ _ _ (by decide)

/-! ### C2: fail-fast, atomic wallet aggregation -/

/-- Helper: the join rejects as soon as its first input rejects. -/
theorem promiseAll3_error_bal (e : String)
    (tok : Except String (List TokenHolding))
    (tx : Except String (List TxnSummary)) :
    promiseAll3 (Except.error e) tok tx = Except.error e := rfl

/-- Helper: the join rejects when its second input rejects. -/
theorem promiseAll3_error_tok (b : ℚ) (e : String)
    (tx : Except String (List TxnSummary)) :
    promiseAll3 (Except.ok b) (Except.error e) tx = Except.error e := rfl

/-- Helper: the join rejects when its third input rejects. -/
theorem promiseAll3_error_tx (b : ℚ) (t : List TokenHolding) (e : String) :
    promiseAll3 (Except.ok b) (Except.ok t) (Except.error e) =
      Except.error e := rfl

/-- Helper: a non-empty address routes `search` through the join. -/
theorem search_eq_error (st : WalletState) (address : String)
    (balResp : Except String (RpcBody BalanceResult))
    (tokResp : Except String (RpcBody TokenAccountsResult))
    (sigResp : Except String (RpcBody (List SignatureEntry)))
    (e : String) (haddr : jsTrim address ≠ "")
    (hall : promiseAll3 (getBalance balResp) (getTokens tokResp)
        (getTxns sigResp) = Except.error e) :
    search st address balResp tokResp sigResp =
      { state := st, outcome := SearchOutcome.errorAlert e
        requests := walletRequests } := by
  unfold search
  rw [if_neg haddr, hall]

/-- C2.  If any of the three wallet sub-queries rejects, the whole
aggregation rejects with one of the sub-query errors — and with exactly
the rejecting sub-query's error whenever the other two resolve — and none
of the balance/tokens/txns state is updated. -/
theorem wallet_fetch_fail_fast_atomic (st : WalletState) (address : String)
    (balResp : Except String (RpcBody BalanceResult))
    (tokResp : Except String (RpcBody TokenAccountsResult))
    (sigResp : Except String (RpcBody (List SignatureEntry)))
    (e : String) (haddr : jsTrim address ≠ "")
    (hrej : getBalance balResp = Except.error e ∨
      getTokens tokResp = Except.error e ∨
      getTxns sigResp = Except.error e) :
    (∃ e', (search st address balResp tokResp sigResp).outcome =
        SearchOutcome.errorAlert e' ∧
      (getBalance balResp = Except.error e' ∨
        getTokens tokResp = Except.error e' ∨
        getTxns sigResp = Except.error e')) ∧
    (search st address balResp tokResp sigResp).state = st ∧
    (getBalance balResp = Except.error e →
      (search st address balResp tokResp sigResp).outcome =
        SearchOutcome.errorAlert e) ∧
    (∀ b, getBalance balResp = Except.ok b →
      getTokens tokResp = Except.error e →
      (search st address balResp tokResp sigResp).outcome =
        SearchOutcome.errorAlert e) ∧
    (∀ b t, getBalance balResp = Except.ok b →
      getTokens tokResp = Except.ok t →
      getTxns sigResp = Except.error e →
      (search st address balResp tokResp sigResp).outcome =
        SearchOutcome.errorAlert e) := by
  cases hb : getBalance balResp with
  | error e1 =>
    have hs := search_eq_error st address balResp tokResp sigResp e1 haddr
      (by rw [hb, promiseAll3_error_bal])
    refine ⟨⟨e1, by rw [hs], Or.inl rfl⟩, by rw [hs], ?_, ?_, ?_⟩
    · intro h
      injection h with h'
      rw [hs, h']
    · intro b hok
      exact absurd hok (by simp)
    · intro b t hok
      exact absurd hok (by simp)
  | ok b =>
    cases ht : getTokens tokResp with
    | error e2 =>
      have hs := search_eq_error st address balResp tokResp sigResp e2 haddr
        (by rw [hb, ht, promiseAll3_error_tok])
      refine ⟨⟨e2, by rw [hs], Or.inr (Or.inl rfl)⟩, by rw [hs], ?_, ?_, ?_⟩
      · intro h
        exact absurd h (by simp)
      · intro b' _ h
        injection h with h'
        rw [hs, h']
      · intro b' t' _ hok
        exact absurd hok (by simp)
    | ok t =>
      cases hx : getTxns sigResp with
      | error e3 =>
        have hs := search_eq_error st address balResp tokResp sigResp e3 haddr
          (by rw [hb, ht, hx, promiseAll3_error_tx])
        refine ⟨⟨e3, by rw [hs], Or.inr (Or.inr rfl)⟩, by rw [hs], ?_, ?_, ?_⟩
        · intro h
          exact absurd h (by simp)
        · intro b' _ h
          exact absurd h (by simp)
        · intro b' t' _ _ h
          injection h with h'
          rw [hs, h']
      | ok x =>
        exfalso
        rcases hrej with h | h | h
        · rw [hb] at h
          exact absurd h (by simp)
        · rw [ht] at h
          exact absurd h (by simp)
        · rw [hx] at h
          exact absurd h (by simp)

/-- Witness for C2: a rejected balance query aborts the whole fetch with
that error and leaves every state field untouched. -/
theorem wallet_fetch_fail_fast_atomic_witness :
    (search { balance := none, tokens := [], txns := [] } "addr"
        (Except.error "boom")
        (Except.ok { error := none, result := { value := none } })
        (Except.ok { error := none, result := [] })).outcome =
      SearchOutcome.errorAlert "boom" ∧
    (search { balance := none, tokens := [], txns := [] } "addr"
        (Except.error "boom")
        (Except.ok { error := none, result := { value := none } })
        (Except.ok { error := none, result := [] })).state =
      { balance := none, tokens := [], txns := [] } := by
  have h := wallet_fetch_fail_fast_atomic
    { balance := none, tokens := [], txns := [] } "addr"
    (Except.error "boom")
    (Except.ok { error := none, result := { value := none } })
    (Except.ok { error := none, result := [] })
    "boom" (by decide) (Or.inl rfl)
  exact ⟨h.2.2.1 rfl, h.2.1⟩

/-! ### C7: the relative-time buckets -/

/-- Helper: the elapsed seconds of a timestamp `k` seconds before the
floor of the current epoch time is exactly `k`. -/
theorem elapsedSeconds_at_offset (nowMs k : Int) :
    elapsedSeconds nowMs (⌊(nowMs : ℚ) / 1000⌋ - k) = k := by
  unfold elapsedSeconds
  rw [Int.floor_sub_int]
  omega

/-- C7.  For past timestamps, `timeAgo` buckets the elapsed seconds at
the fixed thresholds 60/3600/86400 with floor division, and in
particular renders 30 elapsed seconds as "30s ago", 90 as "1m ago",
7200 as "2h ago" and 172800 as "2d ago". -/
theorem timeAgo_buckets (nowMs ts : Int) :
    (0 ≤ elapsedSeconds nowMs ts → elapsedSeconds nowMs ts < 60 →
      timeAgo nowMs ts = toString (elapsedSeconds nowMs ts) ++ "s ago") ∧
    (60 ≤ elapsedSeconds nowMs ts → elapsedSeconds nowMs ts < 3600 →
      timeAgo nowMs ts =
        toString (Int.fdiv (elapsedSeconds nowMs ts) 60) ++ "m ago") ∧
    (3600 ≤ elapsedSeconds nowMs ts → elapsedSeconds nowMs ts < 86400 →
      timeAgo nowMs ts =
        toString (Int.fdiv (elapsedSeconds nowMs ts) 3600) ++ "h ago") ∧
    (86400 ≤ elapsedSeconds nowMs ts →
      timeAgo nowMs ts =
        toString (Int.fdiv (elapsedSeconds nowMs ts) 86400) ++ "d ago") ∧
    timeAgo nowMs (⌊(nowMs : ℚ) / 1000⌋ - 30) = "30s ago" ∧
    timeAgo nowMs (⌊(nowMs : ℚ) / 1000⌋ - 90) = "1m ago" ∧
    timeAgo nowMs (⌊(nowMs : ℚ) / 1000⌋ - 7200) = "2h ago" ∧
    timeAgo nowMs (⌊(nowMs : ℚ) / 1000⌋ - 172800) = "2d ago" := by
  refine ⟨?_, ?_, ?_, ?_, ?_, ?_, ?_, ?_⟩
  · intro _ h60
    simp [timeAgo, h60]
  · intro h60 h3600
    have hn : ¬ elapsedSeconds nowMs ts < 60 := by omega
    simp [timeAgo, hn, h3600]
  · intro h3600 h86400
    have hn : ¬ elapsedSeconds nowMs ts < 60 := by omega
    have hn' : ¬ elapsedSeconds nowMs ts < 3600 := by omega
    simp [timeAgo, hn, hn', h86400]
  · intro h86400
    have hn : ¬ elapsedSeconds nowMs ts < 60 := by omega
    have hn' : ¬ elapsedSeconds nowMs ts < 3600 := by omega
    have hn'' : ¬ elapsedSeconds nowMs ts < 86400 := by omega
    simp [timeAgo, hn, hn', hn'']
  · simp only [timeAgo, elapsedSeconds_at_offset]
    decide
  · simp only [timeAgo, elapsedSeconds_at_offset]
    decide
  · simp only [timeAgo, elapsedSeconds_at_offset]
    decide
  · simp only [timeAgo, elapsedSeconds_at_offset]
    decide

/-- Witness for C7: the seconds bucket evaluated at a concrete clock. -/
theorem timeAgo_buckets_witness : timeAgo 30000 0 = "30s ago" := by
  have he : elapsedSeconds 30000 0 = 30 := by
    unfold elapsedSeconds
    rw [show ((30000 : Int) : ℚ) / 1000 - ((0 : Int) : ℚ) = ((30 : Int) : ℚ)
      by norm_num, Int.floor_intCast]
  have h := (timeAgo_buckets 30000 0).1 (by rw [he]; decide) (by rw [he]; decide)
  rw [h, he]
  decide

/-! ### C10: future timestamps fall in the seconds bucket -/

/-- C10.  `timeAgo` is total: a timestamp strictly in the future gives a
negative elapsed-seconds value, which satisfies the first threshold, so
the seconds bucket is returned with a negative count; e.g. 5 seconds into
the future renders as "-5s ago". -/
theorem timeAgo_future_negative (nowMs ts : Int)
    (h : ⌊(nowMs : ℚ) / 1000⌋ < ts) :
    elapsedSeconds nowMs ts < 0 ∧
    timeAgo nowMs ts =
      toString (elapsedSeconds nowMs ts) ++ "s ago" := by
  have he : elapsedSeconds nowMs ts = ⌊(nowMs : ℚ) / 1000⌋ - ts := by
    unfold elapsedSeconds
    rw [Int.floor_sub_int]
  have hneg : elapsedSeconds nowMs ts < 0 := by omega
  have h60 : elapsedSeconds nowMs ts < 60 := by omega
  exact ⟨hneg, by simp [timeAgo, h60]⟩

/-- Witness for C10: five seconds into the future renders "-5s ago". -/
theorem timeAgo_future_negative_witness : timeAgo 0 5 = "-5s ago" := by
  have hz : ⌊((0 : Int) : ℚ) / 1000⌋ = 0 := by
    rw [show ((0 : Int) : ℚ) / 1000 = ((0 : Int) : ℚ) by norm_num,
      Int.floor_intCast]
  have he : elapsedSeconds 0 5 = -5 := by
    unfold elapsedSeconds
    rw [show ((0 : Int) : ℚ) / 1000 - ((5 : Int) : ℚ) = ((-5 : Int) : ℚ)
      by norm_num, Int.floor_intCast]
  have h := (timeAgo_future_negative 0 5 (by rw [hz]; decide)).2
  rw [h, he]
  decide

/-! ### C1 and C3: pair selection and token-market errors -/

/-- Helper: the reduce over `b :: l` lands on the earliest element of
maximal coerced liquidity — every element before the result in `b :: l`
has strictly smaller liquidity, every element after it no larger. -/
theorem foldl_pickBetter_decomp (l : List TokenPair) (b : TokenPair) :
    ∃ l1 l2, b :: l = l1 ++ List.foldl pickBetter b l :: l2 ∧
      (∀ x ∈ l1, liqUsd x < liqUsd (List.foldl pickBetter b l)) ∧
      (∀ x ∈ l2, liqUsd x ≤ liqUsd (List.foldl pickBetter b l)) := by
  induction l generalizing b with
  | nil =>
    exact ⟨[], [], rfl, by simp, by simp⟩
  | cons x xs ih =>
    by_cases h : liqUsd x > liqUsd b
    · have hstep : List.foldl pickBetter b (x :: xs) =
          List.foldl pickBetter x xs := by
        simp [List.foldl_cons, pickBetter, h]
      obtain ⟨l1, l2, hdec, hlt, hle⟩ := ih x
      have hbr : liqUsd b < liqUsd (List.foldl pickBetter x xs) := by
        cases l1 with
        | nil =>
          rw [List.nil_append] at hdec
          injection hdec with h1 h2
          rw [← h1]
          exact h
        | cons c t =>
          have hc : x = c := by
            simpa using congrArg List.head? hdec
          have hx : x ∈ c :: t := by
            rw [← hc]
            exact List.mem_cons_self _ _
          exact lt_trans h (hlt x hx)
      refine ⟨b :: l1, l2, ?_, ?_, ?_⟩
      · rw [hstep, List.cons_append, ← hdec]
      · intro y hy
        rw [hstep]
        rcases List.mem_cons.mp hy with rfl | hy'
        · exact hbr
        · exact hlt y hy'
      · intro y hy
        rw [hstep]
        exact hle y hy
    · have hx_le : liqUsd x ≤ liqUsd b := not_lt.mp h
      have hstep : List.foldl pickBetter b (x :: xs) =
          List.foldl pickBetter b xs := by
        simp [List.foldl_cons, pickBetter, h]
      obtain ⟨l1, l2, hdec, hlt, hle⟩ := ih b
      cases l1 with
      | nil =>
        rw [List.nil_append] at hdec
        injection hdec with h1 h2
        refine ⟨[], x :: xs, ?_, by simp, ?_⟩
        · rw [hstep, List.nil_append, ← h1]
        · intro y hy
          rw [hstep, ← h1]
          rcases List.mem_cons.mp hy with rfl | hy'
          · exact hx_le
          · have hyl2 : y ∈ l2 := h2 ▸ hy'
            have := hle y hyl2
            rw [← h1] at this
            exact this
      | cons c t =>
        have hc : b = c := by
          simpa using congrArg List.head? hdec
        have hxs : xs = t ++ List.foldl pickBetter b xs :: l2 := by
          simpa using congrArg List.tail hdec
        have hbr : liqUsd b < liqUsd (List.foldl pickBetter b xs) := by
          have hb_mem : b ∈ c :: t := by
            rw [← hc]
            exact List.mem_cons_self _ _
          exact hlt b hb_mem
        refine ⟨b :: x :: t, l2, ?_, ?_, ?_⟩
        · rw [hstep]
          rw [show b :: x :: xs = b :: x :: (t ++ List.foldl pickBetter b xs :: l2)
            from by rw [← hxs]]
          simp
        · intro y hy
          rw [hstep]
          rcases List.mem_cons.mp hy with rfl | hy'
          · exact hbr
          · rcases List.mem_cons.mp hy' with rfl | hy''
            · exact lt_of_le_of_lt hx_le hbr
            · exact hlt y (List.mem_cons_of_mem c hy'')
        · intro y hy
          rw [hstep]
          exact hle y hy

/-- Helper: the source's reduce, whose initial accumulator `pairs[0]` is
also the first scanned element, equals the spec's scan over the tail
(comparing the first element with itself never replaces it). -/
theorem foldl_pickBetter_self (p : TokenPair) (rest : List TokenPair) :
    List.foldl pickBetter p (p :: rest) = List.foldl pickBetter p rest := by
  simp [List.foldl_cons, pickBetter]

/-- C1.  On every non-empty pair list, `fetchTokenData` selects the pair
computed by the left-to-right scan that starts from the first element and
replaces the running best only on strictly greater coerced liquidity;
consequently the selected pair splits the list into strictly-smaller
earlier candidates and no-larger later ones (earliest maximal wins), and
its liquidity is at least every candidate's. -/
theorem fetchTokenData_selects_earliest_max (status : Nat) (p : TokenPair)
    (rest : List TokenPair) :
    ∃ r l1 l2,
      fetchTokenData
          { ok := true, status := status, body := { pairs := some (p :: rest) } } =
        Except.ok r ∧
      r = selectByLiquidity p rest ∧
      p :: rest = l1 ++ r :: l2 ∧
      (∀ x ∈ l1, liqUsd x < liqUsd r) ∧
      (∀ x ∈ l2, liqUsd x ≤ liqUsd r) ∧
      (∀ x ∈ p :: rest, liqUsd x ≤ liqUsd r) := by
  obtain ⟨l1, l2, hdec, hlt, hle⟩ := foldl_pickBetter_decomp rest p
  refine ⟨List.foldl pickBetter p rest, l1, l2, ?_, rfl, hdec, hlt, hle, ?_⟩
  · simp [fetchTokenData, pickBetter]
  · intro x hx
    rw [hdec] at hx
    rcases List.mem_append.mp hx with h1 | h2
    · exact le_of_lt (hlt x h1)
    · rcases List.mem_cons.mp h2 with rfl | h2'
      · exact le_refl _
      · exact hle x h2'

/-- Witness for C1: of two pairs with liquidities 5 and 9, the reduce
selects the second. -/
theorem fetchTokenData_selects_earliest_max_witness :
    fetchTokenData
        { ok := true, status := 200
          body :=
            { pairs := some [samplePairWithLiq "p1" 5, samplePairWithLiq "p2" 9] } } =
      Except.ok (samplePairWithLiq "p2" 9) := by
  obtain ⟨r, l1, l2, h1, h2, _, _, _, _⟩ :=
    fetchTokenData_selects_earliest_max 200 (samplePairWithLiq "p1" 5)
      [samplePairWithLiq "p2" 9]
  have hsel : selectByLiquidity (samplePairWithLiq "p1" 5)
      [samplePairWithLiq "p2" 9] = samplePairWithLiq "p2" 9 := by
    norm_num [selectByLiquidity, pickBetter, liqUsd, samplePairWithLiq]
  rw [h1, h2, hsel]

/-- C3.  With a successful HTTP exchange, `fetchTokenData` fails with the
token-not-found error exactly when the pair list is null or empty; every
non-empty list yields some member of the list unmodified — a singleton
list yields its unique pair even with an absent liquidity field — and a
non-success HTTP status yields the market-fetch error instead. -/
theorem fetchTokenData_error_contract (ok : Bool) (status : Nat)
    (pairs : Option (List TokenPair)) :
    (ok = true →
      (fetchTokenData { ok := ok, status := status, body := { pairs := pairs } } =
          Except.error TokenFetchError.tokenNotFoundError ↔
        pairs = none ∨ pairs = some [])) ∧
    (ok = true → ∀ p rest, pairs = some (p :: rest) →
      ∃ r,
        fetchTokenData { ok := ok, status := status, body := { pairs := pairs } } =
          Except.ok r ∧
        r ∈ p :: rest) ∧
    (ok = true → ∀ p, pairs = some [p] →
      fetchTokenData { ok := ok, status := status, body := { pairs := pairs } } =
        Except.ok p) ∧
    (ok = false →
      fetchTokenData { ok := ok, status := status, body := { pairs := pairs } } =
        Except.error (TokenFetchError.marketFetchError status)) := by
  refine ⟨?_, ?_, ?_, ?_⟩
  · intro hok
    subst hok
    match pairs with
    | none => simp [fetchTokenData]
    | some [] => simp [fetchTokenData]
    | some (p :: rest) => simp [fetchTokenData]
  · intro hok p rest hp
    subst hok
    subst hp
    obtain ⟨l1, l2, hdec, _, _⟩ := foldl_pickBetter_decomp rest p
    refine ⟨List.foldl pickBetter p rest, ?_, ?_⟩
    · simp [fetchTokenData, pickBetter]
    · rw [hdec]
      exact List.mem_append.mpr (Or.inr (List.mem_cons_self _ _))
  · intro hok p hp
    subst hok
    subst hp
    have : List.foldl pickBetter p [p] = p := by
      simp [List.foldl_cons, pickBetter]
    simp [fetchTokenData, this]
  · intro hok
    subst hok
    simp [fetchTokenData]

/-- Witness for C3: an empty list is token-not-found, a singleton list
with an absent liquidity field is returned as-is, and a failed HTTP
exchange is a market-fetch error. -/
theorem fetchTokenData_error_contract_witness :
    fetchTokenData { ok := true, status := 200, body := { pairs := some [] } } =
      Except.error TokenFetchError.tokenNotFoundError ∧
    fetchTokenData
        { ok := true, status := 200, body := { pairs := some [samplePairNoLiq] } } =
      Except.ok samplePairNoLiq ∧
    fetchTokenData { ok := false, status := 404, body := { pairs := none } } =
      Except.error (TokenFetchError.marketFetchError 404) := by
  refine ⟨?_, ?_, ?_⟩
  · exact ((fetchTokenData_error_contract true 200 (some [])).1 rfl).mpr
      (Or.inr rfl)
  · exact (fetchTokenData_error_contract true 200
      (some [samplePairNoLiq])).2.2.1 rfl samplePairNoLiq rfl
  · exact (fetchTokenData_error_contract false 404 none).2.2.2 rfl

/-! ### C8: the three price-formatting regimes -/

/-- Helper: a fixed-width digit block has the requested width. -/
theorem lastDigits_length (k n : Nat) : (lastDigits k n).length = k := by
  induction k generalizing n with
  | zero => rfl
  | succ k ih => simp [lastDigits, ih]

/-- Helper: the six-digit fractional block has length 6. -/
theorem frac6_length (n : Nat) : (frac6 n).length = 6 :=
  lastDigits_length 6 n

/-- Helper: the four-digit fractional block has length 4. -/
theorem frac4_length (n : Nat) : (frac4 n).length = 4 :=
  lastDigits_length 4 n

/-- Helper: the two-digit fractional block has length 2. -/
theorem frac2_length (n : Nat) : (frac2 n).length = 2 :=
  lastDigits_length 2 n

/-- Helper: a scientific rendering has a decimal point followed by a
four-digit fractional block. -/
theorem sci4_shape (m : Nat) (e : Int) :
    ∃ pre frac rest, sci4 m e = pre ++ "." ++ frac ++ rest ∧
      frac.length = 4 :=
  ⟨String.mk [Nat.digitChar (m / 10000)], frac4 (m % 10000), expSuffix e,
    rfl, frac4_length _⟩

/-- Helper: the mantissa assembly keeps the scientific shape. -/
theorem toExpAux_shape (e : Int) (m : Nat) :
    ∃ pre frac rest, toExpAux e m = pre ++ "." ++ frac ++ rest ∧
      frac.length = 4 := by
  unfold toExpAux
  by_cases h : 100000 ≤ m
  · rw [if_pos h]
    exact sci4_shape _ _
  · rw [if_neg h]
    exact sci4_shape _ _

/-- Helper: `toExponential(4)` always shows four fractional digits. -/
theorem toExponential4_shape (p : ℚ) :
    ∃ pre frac rest, toExponential4 p = pre ++ "." ++ frac ++ rest ∧
      frac.length = 4 := by
  by_cases hz : p = 0
  · subst hz
    refine ⟨"0", "0000", "e+0", ?_, by decide⟩
    unfold toExponential4
    rw [if_pos rfl]
    decide
  · by_cases hn : p < 0
    · obtain ⟨pre, frac, rest, heq, hlen⟩ :=
        toExpAux_shape (log10floorPos (-p))
          ((roundNearest (shift10 (-p) (4 - log10floorPos (-p)))).toNat)
      refine ⟨"-" ++ pre, frac, rest, ?_, hlen⟩
      unfold toExponential4
      rw [if_neg hz, if_pos hn]
      unfold toExponential4OfPos
      rw [heq]
      simp [String.append_assoc]
    · obtain ⟨pre, frac, rest, heq, hlen⟩ :=
        toExpAux_shape (log10floorPos p)
          ((roundNearest (shift10 p (4 - log10floorPos p))).toNat)
      refine ⟨pre, frac, rest, ?_, hlen⟩
      unfold toExponential4
      rw [if_neg hz, if_neg hn]
      unfold toExponential4OfPos
      rw [heq]

/-- Helper: `toFixed(6)` always shows six fractional digits. -/
theorem toFixed6_shape (p : ℚ) :
    ∃ ipart frac, toFixed6 p = ipart ++ "." ++ frac ∧ frac.length = 6 := by
  by_cases hp : p < 0
  · refine ⟨"-" ++ Nat.repr ((roundNearest (-p * 1000000)).toNat / 1000000),
      frac6 ((roundNearest (-p * 1000000)).toNat % 1000000), ?_,
      frac6_length _⟩
    unfold toFixed6 toFixed6OfNonneg
    rw [if_pos hp]
    simp [String.append_assoc]
  · refine ⟨Nat.repr ((roundNearest (p * 1000000)).toNat / 1000000),
      frac6 ((roundNearest (p * 1000000)).toNat % 1000000), ?_,
      frac6_length _⟩
    unfold toFixed6 toFixed6OfNonneg
    rw [if_neg hp]

/-- Helper: the locale rendering always shows two fractional digits. -/
theorem toLocale2_shape (p : ℚ) :
    ∃ ipart frac, toLocale2 p = ipart ++ "." ++ frac ∧ frac.length = 2 := by
  by_cases hp : p < 0
  · refine ⟨"-" ++ groupThousands ((roundNearest (-p * 100)).toNat / 100),
      frac2 ((roundNearest (-p * 100)).toNat % 100), ?_, frac2_length _⟩
    unfold toLocale2 toLocale2OfNonneg
    rw [if_pos hp]
    simp [String.append_assoc]
  · refine ⟨groupThousands ((roundNearest (p * 100)).toNat / 100),
      frac2 ((roundNearest (p * 100)).toNat % 100), ?_, frac2_length _⟩
    unfold toLocale2 toLocale2OfNonneg
    rw [if_neg hp]

/-- Helper: the scientific rendering of the sample price 0.00005. -/
theorem toExponential4_sample :
    toExponential4 ((1 : ℚ) / 20000) = "5.0000e-5" := by
  have hz : ¬((1 : ℚ) / 20000 = 0) := by norm_num
  have hn : ¬((1 : ℚ) / 20000 < 0) := by norm_num
  have hlog : log10floorPos ((1 : ℚ) / 20000) = -5 := by
    have hden : ((1 : ℚ) / 20000).den = 20000 := by norm_num [Rat.den]
    have hs : negExp10Aux 6 ((1 : ℚ) / 20000) = 5 := by
      norm_num [negExp10Aux]
    unfold log10floorPos
    rw [if_neg (by norm_num), hden,
      show (Nat.repr 20000).length + 1 = 6 from rfl, hs]
    rfl
  have hsh : shift10 ((1 : ℚ) / 20000) 9 = 50000 := by
    unfold shift10
    rw [if_pos (by norm_num : (0 : Int) ≤ 9),
      show Int.toNat 9 = 9 from rfl]
    norm_num
  have hrm : roundNearest (50000 : ℚ) = 50000 := by
    unfold roundNearest
    rw [Int.floor_eq_iff]
    norm_num
  unfold toExponential4
  rw [if_neg hz, if_neg hn]
  unfold toExponential4OfPos
  rw [hlog, show (4 : Int) - (-5) = 9 from by norm_num, hsh, hrm]
  decide

/-- Helper: the fixed rendering of the sample price 0.5. -/
theorem toFixed6_sample : toFixed6 ((1 : ℚ) / 2) = "0.500000" := by
  have hp : ¬((1 : ℚ) / 2 < 0) := by norm_num
  have hr : roundNearest ((1 : ℚ) / 2 * 1000000) = 500000 := by
    unfold roundNearest
    rw [Int.floor_eq_iff]
    norm_num
  unfold toFixed6 toFixed6OfNonneg
  rw [if_neg hp, hr]
  decide

/-- Helper: the locale rendering of the sample price 1234.5. -/
theorem toLocale2_sample : toLocale2 ((2469 : ℚ) / 2) = "1,234.50" := by
  have hp : ¬((2469 : ℚ) / 2 < 0) := by norm_num
  have hr : roundNearest ((2469 : ℚ) / 2 * 100) = 123450 := by
    unfold roundNearest
    rw [Int.floor_eq_iff]
    norm_num
  unfold toLocale2 toLocale2OfNonneg
  rw [if_neg hp, hr]
  decide

/-- C8.  `formatPrice` has three regimes split at 0.0001 and 1 —
scientific notation with four fractional digits, fixed six decimal
places, locale-grouped with exactly two decimal places — every regime is
prefixed with `$`, and the sample prices 0.00005, 0.5 and 1234.5 render
as "$5.0000e-5", "$0.500000" and "$1,234.50". -/
theorem formatPrice_regimes (p : ℚ) :
    (p < 1 / 10000 → formatPrice p = "$" ++ toExponential4 p) ∧
    (1 / 10000 ≤ p → p < 1 → formatPrice p = "$" ++ toFixed6 p) ∧
    (1 ≤ p → formatPrice p = "$" ++ toLocale2 p) ∧
    (∃ rest, formatPrice p = "$" ++ rest) ∧
    (∃ pre frac rest, toExponential4 p = pre ++ "." ++ frac ++ rest ∧
      frac.length = 4) ∧
    (∃ ipart frac, toFixed6 p = ipart ++ "." ++ frac ∧ frac.length = 6) ∧
    (∃ ipart frac, toLocale2 p = ipart ++ "." ++ frac ∧ frac.length = 2) ∧
    formatPrice ((1 : ℚ) / 20000) = "$5.0000e-5" ∧
    formatPrice ((1 : ℚ) / 2) = "$0.500000" ∧
    formatPrice ((2469 : ℚ) / 2) = "$1,234.50" := by
  refine ⟨?_, ?_, ?_, ?_, toExponential4_shape p, toFixed6_shape p,
    toLocale2_shape p, ?_, ?_, ?_⟩
  · intro h
    unfold formatPrice
    rw [if_pos h]
  · intro h1 h2
    unfold formatPrice
    rw [if_neg (not_lt.mpr h1), if_pos h2]
  · intro h
    have h1 : ¬(p < 1 / 10000) := by
      have : (1 : ℚ) / 10000 < 1 := by norm_num
      intro hc
      linarith
    have h2 : ¬(p < 1) := not_lt.mpr h
    unfold formatPrice
    rw [if_neg h1, if_neg h2]
  · by_cases h1 : p < 1 / 10000
    · exact ⟨toExponential4 p, by unfold formatPrice; rw [if_pos h1]⟩
    · by_cases h2 : p < 1
      · exact ⟨toFixed6 p, by unfold formatPrice; rw [if_neg h1, if_pos h2]⟩
      · exact ⟨toLocale2 p, by unfold formatPrice; rw [if_neg h1, if_neg h2]⟩
  · unfold formatPrice
    rw [if_pos (by norm_num : (1 : ℚ) / 20000 < 1 / 10000),
      toExponential4_sample]
    decide
  · unfold formatPrice
    rw [if_neg (by norm_num : ¬((1 : ℚ) / 2 < 1 / 10000)),
      if_pos (by norm_num : (1 : ℚ) / 2 < 1), toFixed6_sample]
    decide
  · unfold formatPrice
    rw [if_neg (by norm_num : ¬((2469 : ℚ) / 2 < 1 / 10000)),
      if_neg (by norm_num : ¬((2469 : ℚ) / 2 < 1)), toLocale2_sample]
    decide

/-- Witness for C8: the fixed regime evaluated at the sample price 0.5. -/
theorem formatPrice_regimes_witness :
    formatPrice ((1 : ℚ) / 2) = "$" ++ toFixed6 ((1 : ℚ) / 2) ∧
    formatPrice ((1 : ℚ) / 2) = "$0.500000" := by
  have h := formatPrice_regimes ((1 : ℚ) / 2)
  exact ⟨h.2.1 (by norm_num) (by norm_num), h.2.2.2.2.2.2.2.2.1⟩

end SolView
